import Mathlib

/-! goharvest: the OAI-PMH harvesting client (package `oai`)

A shallow embedding of `oai/Request.go` and of the part of `oai/Response.go`
it reads, followed by theorems about the URL builder (`GetFullURL`), the
resumption tracker (`Response.ResumptionToken`), the harvest engine
(`Harvest`), the delivery adapters (`HarvestIdentifiers`, `HarvestRecords`,
`ChannelHarvestIdentifiers`) and the per-attempt classification inside
`Perform`.

Conventions of the embedding:

* a Go `string` is a Lean `String` (valid UTF-8 text); where Go works on the
  bytes of a string (`url.QueryEscape`) the embedding works on the UTF-8
  bytes of the characters;
* a Go `int` that is only copied is an `Int`;
* a `*Response` is an `Option Response`, `none` being the nil pointer;
* a run-time panic is a value (`Except.error msg`), so that a run that panics
  can be told apart from one that returns;
* the effects of a run (page fetches, callback invocations, channel sends)
  are returned as lists, in the order in which they happen;
* a pointer put on a channel (`&header`) is a `Ref`: the range variable it is
  the address of and what that variable holds at the time of the send. Whether
  a `for ... range` loop has one variable for the whole loop (Go before 1.22)
  or one per iteration (from Go 1.22 on, for a module that declares it) is the
  argument `perIteration`, as the sources do not fix it.
-/

namespace oai

/-! ## Data model (`oai/Response.go`, `oai/Request.go`) -/

/-- Go `Header`. -/
structure Header where
  Status : String := ""
  Identifier : String := ""
  DateStamp : String := ""
  SetSpec : List String := []
deriving DecidableEq, Repr, Inhabited

/-- Go `Metadata`: the raw inner XML, as bytes. -/
structure Metadata where
  Body : List Nat := []
deriving DecidableEq, Repr, Inhabited

/-- Go `About`: the raw inner XML, as bytes. -/
structure About where
  Body : List Nat := []
deriving DecidableEq, Repr, Inhabited

/-- Go `Record`. -/
structure Record where
  Header : Header := {}
  Metadata : Metadata := {}
  About : About := {}
  Raw : List Nat := []
deriving DecidableEq, Repr, Inhabited

/-- Go `ResumptionToken` (the struct of `Response.go`). -/
structure ResumptionToken where
  Token : String := ""
  CompleteListSize : Int := 0
deriving DecidableEq, Repr, Inhabited

/-- Go `ListIdentifiers`. -/
structure ListIdentifiers where
  Headers : List Header := []
  ResumptionToken : ResumptionToken := {}
deriving DecidableEq, Repr, Inhabited

/-- Go `ListRecords`. -/
structure ListRecords where
  Records : List Record := []
  ResumptionToken : ResumptionToken := {}
deriving DecidableEq, Repr, Inhabited

/-- Go `GetRecord`. -/
structure GetRecord where
  Record : Record := {}
deriving DecidableEq, Repr, Inhabited

/-- Go `RequestNode`. -/
structure RequestNode where
  Verb : String := ""
  Set : String := ""
  MetadataPrefix : String := ""
deriving DecidableEq, Repr, Inhabited

/-- Go `OAIError`. -/
structure OAIError where
  Code : String := ""
  Message : String := ""
deriving DecidableEq, Repr, Inhabited

/-- Go `Response`, with the fields the harvesting code can reach (the
`Identify`, `ListMetadataFormats` and `ListSets` payloads are never read by
`Request.go` and are left out). -/
structure Response where
  ResponseDate : String := ""
  Request : RequestNode := {}
  Error : OAIError := {}
  GetRecord : GetRecord := {}
  ListIdentifiers : ListIdentifiers := {}
  ListRecords : ListRecords := {}
deriving DecidableEq, Repr, Inhabited

/-- Go `Request`. -/
structure Request where
  BaseURL : String := ""
  Set : String := ""
  MetadataPrefix : String := ""
  Verb : String := ""
  Identifier : String := ""
  ResumptionToken : String := ""
  From : String := ""
  Until : String := ""
  CompleteListSize : Int := 0
deriving DecidableEq, Repr, Inhabited

/-! ## `url.QueryEscape` (Go standard library, `net/url`) -/

/-- Go `shouldEscape(c, encodeQueryComponent)` on a byte: letters, digits and
`-`, `_`, `.`, `~` are kept, every other byte is escaped. -/
def shouldEscape (c : Nat) : Bool :=
  if (97 ≤ c ∧ c ≤ 122) ∨ (65 ≤ c ∧ c ≤ 90) ∨ (48 ≤ c ∧ c ≤ 57) then false
  else if c = 45 ∨ c = 95 ∨ c = 46 ∨ c = 126 then false
  else true

/-- Go `upperhex[n]` for a nibble `n`. -/
def upperhex (n : Nat) : Char :=
  "0123456789ABCDEF".toList.getD n '0'

/-- What `escape` writes for one byte in mode `encodeQueryComponent`: `+` for
a space, `%XX` for a byte that must be escaped, the byte itself otherwise. -/
def escapeByte (c : Nat) : List Char :=
  if c = 32 then ['+']
  else if shouldEscape c then ['%', upperhex (c / 16), upperhex (c % 16)]
  else [Char.ofNat c]

/-- The bytes of a Go string: the UTF-8 encoding of its characters. -/
def bytes (s : String) : List Nat :=
  s.toList.flatMap (fun c => (String.utf8EncodeChar c).map UInt8.toNat)

/-- Go `url.QueryEscape`: every byte of the string is written through
`escapeByte`. -/
def QueryEscape (s : String) : String :=
  String.mk ((bytes s).flatMap escapeByte)

/-! ## URL builder -/

/-- Go `strings.Join(elems, sep)`. -/
def Join : List String → String → String
  | [], _ => ""
  | [a], _ => a
  | a :: b :: rest, sep => a ++ sep ++ Join (b :: rest) sep

/-- The closure `add` of `GetFullURL`, with the slice it appends to made an
argument and a result. -/
def add (array : List String) (name value : String) : List String :=
  if value ≠ "" then array ++ [name ++ "=" ++ value] else array

/-- The slice `array` of `GetFullURL` after its seven calls of `add`. -/
def queryArray (request : Request) : List String :=
  let array : List String := []
  let array := add array "verb" request.Verb
  let array := add array "set" request.Set
  let array := add array "metadataPrefix" request.MetadataPrefix
  let array := add array "resumptionToken" (QueryEscape request.ResumptionToken)
  let array := add array "identifier" request.Identifier
  let array := add array "from" request.From
  let array := add array "until" request.Until
  array

/-- Go `(*Request).GetFullURL`. -/
def GetFullURL (request : Request) : String :=
  Join [request.BaseURL, "?", Join (queryArray request) "&"] ""

/-! ## Resumption tracker -/

/-- Go `(*Response).ResumptionToken`: the three named results, assigned in the
order of the source. -/
def Response.ResumptionToken (resp : Option Response) : Bool × String × Int :=
  let hasResumptionToken := false
  let resumptionToken := ""
  let completeListSize : Int := 0
  match resp with
  | none => (hasResumptionToken, resumptionToken, completeListSize)
  | some resp =>
    let resumptionToken := resp.ListIdentifiers.ResumptionToken.Token
    let completeListSize :=
      if resumptionToken ≠ "" then resp.ListIdentifiers.ResumptionToken.CompleteListSize
      else completeListSize
    let (resumptionToken, completeListSize) :=
      if resumptionToken = "" then
        (resp.ListRecords.ResumptionToken.Token, resp.ListRecords.ResumptionToken.CompleteListSize)
      else (resumptionToken, completeListSize)
    let hasResumptionToken := if resumptionToken ≠ "" then true else hasResumptionToken
    (hasResumptionToken, resumptionToken, completeListSize)

/-! ## Harvest engine -/

/-- How a run of the engine ends. -/
inductive Status where
  | returned
  | panicked (msg : String)
  | outOfFuel
deriving DecidableEq, Repr, Inhabited

/-- The observable outcome of a run of `Harvest`. -/
structure Run (ε : Type) where
  /-- The `Request` struct (mutated in place by the engine) after the run. -/
  request : Request
  /-- The `Request` as it was at each call of `Perform`, in order. -/
  issued : List Request
  /-- The argument of each invocation of `batchCallback`, in order. -/
  batches : List (Option Response)
  /-- What the invocations of `batchCallback` did, in order. -/
  events : List ε
  status : Status
deriving DecidableEq, Repr

/-- The message of the run-time panic on a nil pointer dereference. -/
def nilDereference : String := "invalid memory address or nil pointer dereference"

/-- The message of the run-time panic on an index outside a slice. -/
def indexOutOfRange : String := "index out of range"

/-- Go `(*Request).Perform`, as the engine sees it: the retried GET of
`request.GetFullURL()` ends with a parsed `*Response` or with nil. The HTTP
server and the retry loop are the argument `server`: what the `k`-th page fetch
of the run yields for a URL. -/
def Perform (server : Nat → String → Option Response) (k : Nat) (request : Request) :
    Option Response :=
  server k (GetFullURL request)

/-- Go `(*Request).Harvest`. A `batchCallback` yields what it did and whether
it returned (`.ok ()`) or panicked. The recursion of the source is bounded by
`fuel`, the number of page fetches allowed; `k` counts the fetches made so far. -/
def Harvest {ε : Type} (server : Nat → String → Option Response)
    (batchCallback : Option Response → List ε × Except String Unit) :
    Nat → Nat → Request → Run ε
  | 0, _, request =>
    { request := request, issued := [], batches := [], events := [], status := .outOfFuel }
  | fuel + 1, k, request =>
    let oaiResponse := Perform server k request
    match batchCallback oaiResponse with
    | (done, .error msg) =>
      { request := request, issued := [request], batches := [oaiResponse], events := done,
        status := .panicked msg }
    | (done, .ok ()) =>
      match Response.ResumptionToken oaiResponse with
      | (hasResumptionToken, resumptionToken, completeListSize) =>
        if hasResumptionToken = true then
          let next : Request :=
            { request with
                Set := ""
                MetadataPrefix := ""
                From := ""
                ResumptionToken := resumptionToken
                CompleteListSize := completeListSize }
          let rest := Harvest server batchCallback fuel (k + 1) next
          { rest with
              issued := request :: rest.issued
              batches := oaiResponse :: rest.batches
              events := done ++ rest.events }
        else
          { request := request, issued := [request], batches := [oaiResponse], events := done,
            status := .returned }

/-! ## Delivery adapters -/

/-- The loop `for _, x := range xs { callback(&x) }`: the values the callback
is handed, in order. -/
def rangeCallback {α : Type} : List α → List α
  | [] => []
  | x :: rest => x :: rangeCallback rest

/-- The batch callback of `HarvestIdentifiers`: `resp.ListIdentifiers.Headers`
dereferences `resp`. -/
def HarvestIdentifiers.batchCallback (resp : Option Response) :
    List Header × Except String Unit :=
  match resp with
  | none => ([], .error nilDereference)
  | some resp =>
    let headers := resp.ListIdentifiers.Headers
    (rangeCallback headers, .ok ())

/-- Go `(*Request).HarvestIdentifiers`; the events are the headers handed to
`callback`. -/
def HarvestIdentifiers (server : Nat → String → Option Response) (fuel : Nat)
    (request : Request) : Run Header :=
  let request := { request with Verb := "ListIdentifiers" }
  Harvest server HarvestIdentifiers.batchCallback fuel 0 request

/-- The batch callback of `HarvestRecords`: `resp.ListRecords.Records`
dereferences `resp`. -/
def HarvestRecords.batchCallback (resp : Option Response) :
    List Record × Except String Unit :=
  match resp with
  | none => ([], .error nilDereference)
  | some resp =>
    let records := resp.ListRecords.Records
    (rangeCallback records, .ok ())

/-- Go `(*Request).HarvestRecords`; the events are the records handed to
`callback`. -/
def HarvestRecords (server : Nat → String → Option Response) (fuel : Nat)
    (request : Request) : Run Record :=
  let request := { request with Verb := "ListRecords" }
  Harvest server HarvestRecords.batchCallback fuel 0 request

/-- A pointer `&header` to the range variable of the header loop, as it is
when it is put on a channel: `cell` tells which range variable of this
execution of the loop it is the address of, `holds` is what that variable
holds at the time of the send. (The variables of the loop executed on another
page are other variables.) -/
structure Ref where
  cell : Nat
  holds : Header
deriving DecidableEq, Repr, Inhabited

/-- The range variable in use in iteration `j` of a `for ... range` loop: one
variable per iteration, or one for the whole loop. -/
def rangeVariable (perIteration : Bool) (j : Nat) : Nat :=
  if perIteration then j else 0

/-- A channel send `channels[c] <- v`: the index of the channel and the
pointer sent (`none` is the nil sentinel). -/
abbrev Send := Nat × Option Ref

/-- The header loop of `ChannelHarvestIdentifiers` over `n = len(channels)`
channels, from iteration `j` with the value `i` of the index variable: the
range variable is set to the header, `channels[i] <- &header` (which panics
when `i` is outside the slice), `i++`, and the reset of `i`. -/
def sendHeaders (perIteration : Bool) (n : Nat) :
    List Header → Nat → Nat → List Send × Except String Unit
  | [], _, _ => ([], .ok ())
  | header :: rest, j, i =>
    if i < n then
      let i1 := i + 1
      let i2 := if i1 = n then 0 else i1
      match sendHeaders perIteration n rest (j + 1) i2 with
      | (sent, r) =>
        ((i, some { cell := rangeVariable perIteration j, holds := header }) :: sent, r)
    else ([], .error indexOutOfRange)

/-- The range variables of one execution of the header loop with what each
holds once the loop has ended: every header in its own variable, or the last
header in the one variable. -/
def rangeVariables (perIteration : Bool) (headers : List Header) : List Header :=
  if perIteration then headers else headers.getLast?.toList

/-- What the values received from a channel read once the header loop that
sent them has ended: a pointer reads the range variable it is the address of,
the nil sentinel reads nothing. -/
def readBack (perIteration : Bool) (headers : List Header) (received : List (Option Ref)) :
    List (Option Header) :=
  received.map (fun v =>
    match v with
    | none => none
    | some ref => (rangeVariables perIteration headers)[ref.cell]?)

/-- The loop `for _, channel := range channels { channel <- nil }`. -/
def sendNil (n : Nat) : List Send :=
  (List.range n).map (fun c => (c, none))

/-- The batch callback of `ChannelHarvestIdentifiers` over `n` channels. -/
def ChannelHarvestIdentifiers.batchCallback (perIteration : Bool) (n : Nat)
    (resp : Option Response) : List Send × Except String Unit :=
  match resp with
  | none => ([], .error nilDereference)
  | some r =>
    let headers := r.ListIdentifiers.Headers
    match sendHeaders perIteration n headers 0 0 with
    | (sent, .error msg) => (sent, .error msg)
    | (sent, .ok ()) =>
      match Response.ResumptionToken resp with
      | (hasResumptionToken, _, _) =>
        if !hasResumptionToken then (sent ++ sendNil n, .ok ())
        else (sent, .ok ())

/-- Go `(*Request).ChannelHarvestIdentifiers` over `n = len(channels)`
channels, every one of which has a receiver ready; the events are the sends. -/
def ChannelHarvestIdentifiers (perIteration : Bool)
    (server : Nat → String → Option Response) (n : Nat)
    (fuel : Nat) (request : Request) : Run Send :=
  let request := { request with Verb := "ListIdentifiers" }
  Harvest server (ChannelHarvestIdentifiers.batchCallback perIteration n) fuel 0 request

/-! ## One attempt of `Perform` -/

/-- The error values of an attempt, by where they come from; `stop err` is the
Go value `stop{err}`, which ends the retry loop. -/
inductive GoError where
  | transport (msg : String)
  | Errorf (msg : String)
  | readAll (msg : String)
  | unmarshal (msg : String)
  | stop (err : GoError)
deriving DecidableEq, Repr, Inhabited

/-- What `client.Get` hands to the attempt when it succeeds: the status code
and the outcome of reading the body. -/
structure HTTPResponse where
  StatusCode : Int
  Body : Except String (List Nat)

/-- The outcome of one attempt. -/
structure Attempt where
  /-- The variable `oaiResponse` after the attempt. -/
  oaiResponse : Option Response
  /-- The error the closure returns (`none` is a nil error). -/
  err : Option GoError
  /-- Whether `ioutil.ReadAll(resp.Body)` was called. -/
  readBody : Bool
  /-- Whether `xml.Unmarshal` was called. -/
  parsedBody : Bool
deriving DecidableEq, Repr

/-- The closure `Perform` passes to `retry`. `get` is the result of
`client.Get(request.GetFullURL())`; `Unmarshal` is `xml.Unmarshal(body,
&oaiResponse)`, which yields the new value of `oaiResponse` and an error. -/
def Perform.attempt (Unmarshal : List Nat → Option Response → Option Response × Option String)
    (get : Except String HTTPResponse) (oaiResponse : Option Response) : Attempt :=
  match get with
  | .error err =>
    { oaiResponse := oaiResponse, err := some (.transport err), readBody := false,
      parsedBody := false }
  | .ok resp =>
    let s := resp.StatusCode
    if s ≥ 500 then
      { oaiResponse := oaiResponse, err := some (.Errorf ("server error: " ++ toString s)),
        readBody := false, parsedBody := false }
    else if s = 408 then
      { oaiResponse := oaiResponse, err := some (.Errorf ("Timeout error: " ++ toString s)),
        readBody := false, parsedBody := false }
    else if s ≥ 400 then
      { oaiResponse := oaiResponse,
        err := some (.stop (.Errorf ("client error: " ++ toString s))),
        readBody := false, parsedBody := false }
    else
      match resp.Body with
      | .error err =>
        { oaiResponse := oaiResponse, err := some (.stop (.readAll err)), readBody := true,
          parsedBody := false }
      | .ok body =>
        match Unmarshal body oaiResponse with
        | (parsed, some err) =>
          { oaiResponse := parsed, err := some (.stop (.unmarshal err)), readBody := true,
            parsedBody := true }
        | (parsed, none) =>
          { oaiResponse := parsed, err := none, readBody := true, parsedBody := true }

/-- Modelled from the spec: `retry` and the type `stop` are not among the
sources. An attempt is retried when it ends with an error that is not a `stop`
value. -/
def GoError.retryable : Option GoError → Bool
  | some (.stop _) => false
  | some _ => true
  | none => false

/-- Modelled from the spec: `retry` and the type `stop` are not among the
sources. An attempt ends the retry loop with a failure when it ends with a
`stop` value. -/
def GoError.terminal : Option GoError → Bool
  | some (.stop _) => true
  | _ => false

/-! ## Reference definitions and example data -/

/-- The parameters of a URL as the specification lists them, in its fixed
order: the name, the value of the field, and the value that is emitted (the
percent-encoded form for the resumption token, the field itself otherwise). -/
def specParams (request : Request) : List (String × String × String) :=
  [ ("verb", request.Verb, request.Verb),
    ("set", request.Set, request.Set),
    ("metadataPrefix", request.MetadataPrefix, request.MetadataPrefix),
    ("resumptionToken", request.ResumptionToken, QueryEscape request.ResumptionToken),
    ("identifier", request.Identifier, request.Identifier),
    ("from", request.From, request.From),
    ("until", request.Until, request.Until) ]

/-- The URL as the specification defines it: the base URL, `?`, and the
`&`-join of `name=value` for exactly the fields whose value is not empty. -/
def GetFullURL_spec (request : Request) : String :=
  request.BaseURL ++ "?" ++
    "&".intercalate
      (((specParams request).filter (fun p => p.2.1 ≠ "")).map (fun p => p.1 ++ "=" ++ p.2.2))

/-- A server that answers the `k`-th page fetch with the `k`-th page of a
list, whatever the URL, and fails (nil) after the last one. -/
def scripted (pages : List Response) : Nat → String → Option Response :=
  fun k _ => pages[k]?

/-- A batch callback that does nothing and returns. -/
def idle : Option Response → List Unit × Except String Unit :=
  fun _ => ([], .ok ())

/-- A first-page request with every selector set. -/
def firstRequest : Request :=
  { BaseURL := "http://services.kb.nl/mdo/oai", Verb := "ListRecords", Set := "DTS",
    MetadataPrefix := "dcx", From := "2012-09-06", Until := "2012-12-31" }

/-- A two-page chain: two records and the token `abc`, then one record and no
token. -/
def twoPages : List Response :=
  [ { ListRecords :=
        { Records := [{ Header := { Identifier := "r1" } }, { Header := { Identifier := "r2" } }],
          ResumptionToken := { Token := "abc", CompleteListSize := 3 } } },
    { ListRecords := { Records := [{ Header := { Identifier := "r3" } }] } } ]

/-- A response with the token `T1` (size 100) under ListIdentifiers and the
token `T2` (size 200) under ListRecords. -/
def bothTokens : Response :=
  { ListIdentifiers := { ResumptionToken := { Token := "T1", CompleteListSize := 100 } },
    ListRecords := { ResumptionToken := { Token := "T2", CompleteListSize := 200 } } }

/-- A last page of a ListRecords harvest: one record and an empty
`resumptionToken` element that still carries `completeListSize="100"`. -/
def lastPage : Response :=
  { ListRecords :=
      { Records := [{ Header := { Identifier := "r9" } }],
        ResumptionToken := { Token := "", CompleteListSize := 100 } } }

/-! ### Reading a query string back -/

/-- The split of a list of characters at every occurrence of a separator
(Go `strings.Split` with a one-character separator). -/
def splitOn (sep : Char) : List Char → List (List Char)
  | [] => [[]]
  | c :: rest =>
    match splitOn sep rest with
    | [] => [[c]]
    | seg :: segs => if c = sep then [] :: seg :: segs else (c :: seg) :: segs

/-- The cut of a list of characters at the first occurrence of a separator:
what is before it and what is after it (Go `strings.Cut`). -/
def cut (sep : Char) : List Char → List Char × List Char
  | [] => ([], [])
  | c :: rest =>
    if c = sep then ([], rest)
    else match cut sep rest with
      | (before, after) => (c :: before, after)

/-- Go `unhex`: the value of a hexadecimal digit. -/
def unhex (c : Char) : Option Nat :=
  if 48 ≤ c.toNat ∧ c.toNat ≤ 57 then some (c.toNat - 48)
  else if 97 ≤ c.toNat ∧ c.toNat ≤ 102 then some (c.toNat - 97 + 10)
  else if 65 ≤ c.toNat ∧ c.toNat ≤ 70 then some (c.toNat - 65 + 10)
  else none

/-- Go `url.QueryUnescape`, to the bytes of its result: `%XX` is the byte
`XX`, `+` is a space, and a `%` that is not followed by two hexadecimal digits
is an error (`none`). -/
def QueryUnescape : List Char → Option (List Nat)
  | [] => some []
  | c :: rest =>
    if c = '%' then
      match rest with
      | a :: b :: rest2 =>
        match unhex a, unhex b, QueryUnescape rest2 with
        | some x, some y, some out => some ((x * 16 + y) :: out)
        | _, _, _ => none
      | _ => none
    else if c = '+' then
      match QueryUnescape rest with
      | some out => some (32 :: out)
      | none => none
    else
      match QueryUnescape rest with
      | some out => some ((String.utf8EncodeChar c).map UInt8.toNat ++ out)
      | none => none

/-- The parameters a server reads from a URL: the query string (what follows
the first `?`) split on `&`, each part cut at its first `=`, each value
percent-decoded to bytes. -/
def decodeQuery (url : String) : List (String × Option (List Nat)) :=
  (splitOn '&' (cut '?' url.toList).2).map
    (fun part => (String.mk (cut '=' part).1, QueryUnescape (cut '=' part).2))

/-- The non-empty fields of a Request with their original values, as a server
should read them back: the name and the bytes of the value. -/
def originalParams (request : Request) : List (String × Option (List Nat)) :=
  ((specParams request).filter (fun p => p.2.1 ≠ "")).map (fun p => (p.1, some (bytes p.2.1)))

/-- A GetRecord request whose identifier holds the reserved character `&`. -/
def reservedInIdentifier : Request :=
  { BaseURL := "http://h/oai", Verb := "GetRecord", Identifier := "oai:h:a&b" }

/-- A request whose resumption token holds the reserved character `&`. -/
def reservedInToken : Request :=
  { BaseURL := "http://h/oai", Verb := "ListRecords", ResumptionToken := "oai:h:a&b" }

/-- A parser that accepts every body and yields an empty Response. -/
def parseAny : List Nat → Option Response → Option Response × Option String :=
  fun _ _ => (some {}, none)

/-- The error of an attempt that got the status `s` and an empty, readable
body, with the parser `parseAny`. -/
def errAt (s : Int) : Option GoError :=
  (Perform.attempt parseAny (.ok { StatusCode := s, Body := .ok [] }) none).err

/-- A header with a given identifier. -/
def header (identifier : String) : Header :=
  { Identifier := identifier }

/-- A single page of seven headers and no token. -/
def sevenHeaders : Response :=
  { ListIdentifiers :=
      { Headers := [header "h1", header "h2", header "h3", header "h4", header "h5",
          header "h6", header "h7"] } }

/-- The values sent to channel `c`, in order, among a list of sends. -/
def receivedBy (c : Nat) (sent : List Send) : List (Option Ref) :=
  (sent.filter (fun e => e.1 = c)).map (fun e => e.2)

/-- The pages of a list carry a resumption token exactly up to the last one:
the list is not empty and its page `j` (counted from 0) has a token iff it is
not the last. -/
def PageChain (pages : List Response) : Prop :=
  pages ≠ [] ∧
    ∀ j (h : j < pages.length),
      ((Response.ResumptionToken (some pages[j])).1 = true ↔ j + 1 < pages.length)

/-- A server answers the page fetches of a run with the pages of a list, in
order. -/
def Serves (server : Nat → String → Option Response) (pages : List Response) : Prop :=
  ∀ j url, j < pages.length → server j url = pages[j]?

/-- A page of a ListRecords harvest that goes on: one record and the token
`abc` with size 3, nothing under ListIdentifiers. -/
def tokenPage : Response :=
  { ListRecords :=
      { Records := [{ Header := { Identifier := "r1" } }],
        ResumptionToken := { Token := "abc", CompleteListSize := 3 } } }

/-- A server whose every page fetch fails: `Perform` yields nil. -/
def failing : Nat → String → Option Response :=
  fun _ _ => none

/-- A first-page request with a set spec and an identifier. -/
def identifierRequest : Request :=
  { BaseURL := "http://h/oai", Verb := "ListRecords", Set := "DTS", Identifier := "oai:h:1" }

/-- The header sends of a page over `n` channels as round-robin defines them:
for the `j`-th header of the page, a pointer to the range variable of iteration
`j`, which holds that header, goes to channel `j mod n`. -/
def headerSends (perIteration : Bool) (n : Nat) (p : Response) : List Send :=
  p.ListIdentifiers.Headers.enum.map
    (fun e => (e.1 % n, some { cell := rangeVariable perIteration e.1, holds := e.2 }))

/-- A two-page chain of a ListIdentifiers harvest: three headers and the token
`tok`, then two headers and no token. -/
def headerPages : List Response :=
  [ { ListIdentifiers :=
        { Headers := [header "h1", header "h2", header "h3"],
          ResumptionToken := { Token := "tok", CompleteListSize := 5 } } },
    { ListIdentifiers := { Headers := [header "h4", header "h5"] } } ]

end oai

namespace oai

/-! ## Lemmas on the URL builder -/

theorem utf8EncodeChar_ne_nil (c : Char) : String.utf8EncodeChar c ≠ [] := by
  unfold String.utf8EncodeChar
  simp only
  split_ifs <;> simp

theorem escapeByte_ne_nil (c : Nat) : escapeByte c ≠ [] := by
  unfold escapeByte
  split_ifs <;> simp

theorem QueryEscape_eq_empty_iff (s : String) : QueryEscape s = "" ↔ s = "" := by
  constructor
  · intro h
    rcases s with ⟨l⟩
    cases l with
    | nil => rfl
    | cons c rest =>
      exfalso
      have h1 : ((bytes ⟨c :: rest⟩).flatMap escapeByte) = [] := by
        have := congrArg String.data h
        simpa [QueryEscape] using this
      have hc := utf8EncodeChar_ne_nil c
      cases hb : String.utf8EncodeChar c with
      | nil => exact hc hb
      | cons b bs =>
        have he := escapeByte_ne_nil b.toNat
        simp [bytes, hb, List.flatMap_cons] at h1
        exact he h1.1
  · rintro rfl
    rfl

theorem intercalate_go_append (x y sep : String) (l : List String) :
    String.intercalate.go (x ++ y) sep l = x ++ String.intercalate.go y sep l := by
  induction l generalizing y with
  | nil => simp [String.intercalate.go]
  | cons a rest ih =>
    simp only [String.intercalate.go]
    rw [String.append_assoc, String.append_assoc, ← String.append_assoc y, ih]

theorem Join_eq_intercalate (l : List String) (sep : String) :
    Join l sep = sep.intercalate l := by
  induction l with
  | nil => rfl
  | cons a rest ih =>
    cases rest with
    | nil => simp [Join, String.intercalate, String.intercalate.go]
    | cons b rest2 =>
      simp only [Join, String.intercalate, String.intercalate.go] at ih ⊢
      rw [ih, intercalate_go_append]

theorem add_eq_append (array : List String) (name value : String) :
    add array name value = array ++ (if value ≠ "" then [name ++ "=" ++ value] else []) := by
  unfold add
  split_ifs <;> simp

theorem filter_map_param (name field value : String) (l : List (String × String × String)) :
    (((name, field, value) :: l).filter (fun p => p.2.1 ≠ "")).map (fun p => p.1 ++ "=" ++ p.2.2)
      = (if field ≠ "" then [name ++ "=" ++ value] else [])
          ++ (l.filter (fun p => p.2.1 ≠ "")).map (fun p => p.1 ++ "=" ++ p.2.2) := by
  by_cases h : field = "" <;> simp [List.filter, h]

/-- The slice built by `GetFullURL` holds `name=value` for the fields of the
specification whose value is not empty, in the order of the specification. -/
theorem queryArray_eq (request : Request) :
    queryArray request =
      ((specParams request).filter (fun p => p.2.1 ≠ "")).map (fun p => p.1 ++ "=" ++ p.2.2) := by
  have hq := QueryEscape_eq_empty_iff request.ResumptionToken
  simp only [queryArray, add_eq_append, specParams, filter_map_param]
  by_cases ht : request.ResumptionToken = ""
  · have he : QueryEscape "" = "" := rfl
    simp [List.filter, ht, he]
  · have hne : QueryEscape request.ResumptionToken ≠ "" := fun h => ht (hq.1 h)
    simp [List.filter, ht, hne]

/-- C2. For every Request, `GetFullURL` returns the base URL, `?`, and the
`&`-join of the `name=value` pairs of exactly the fields whose value is not
empty, in the order verb, set, metadataPrefix, resumptionToken, identifier,
from, until, the resumption token being emitted in its query-escaped form. -/
theorem GetFullURL_eq_spec (request : Request) :
    GetFullURL request = GetFullURL_spec request := by
  unfold GetFullURL GetFullURL_spec
  rw [← queryArray_eq, ← Join_eq_intercalate]
  simp [Join, String.append_assoc]

/-! ## Resumption tracker -/

/-- C3. For every non-nil Response whose ListIdentifiers resumption token is a
non-empty string, `ResumptionToken` returns `true`, that token and the
ListIdentifiers complete-list size, whatever ListRecords holds. -/
theorem ResumptionToken_ListIdentifiers_first (resp : Response)
    (h : resp.ListIdentifiers.ResumptionToken.Token ≠ "") :
    Response.ResumptionToken (some resp) =
      (true, resp.ListIdentifiers.ResumptionToken.Token,
        resp.ListIdentifiers.ResumptionToken.CompleteListSize) := by
  simp [Response.ResumptionToken, h]

/-- C3 at the example of the specification: `T1` (100) wins over `T2` (200). -/
theorem ResumptionToken_ListIdentifiers_first_witness :
    bothTokens.ListRecords.ResumptionToken = { Token := "T2", CompleteListSize := 200 } ∧
      Response.ResumptionToken (some bothTokens) = (true, "T1", 100) :=
  ⟨by decide, ResumptionToken_ListIdentifiers_first bothTokens (by decide)⟩

/-- C6 as stated fails: a non-nil Response with both tokens empty whose
ListRecords `resumptionToken` element carries a size does not yield
`(false, "", 0)`. -/
theorem ResumptionToken_empty_tokens_not_zero :
    ¬ ∀ resp : Response,
        resp.ListIdentifiers.ResumptionToken.Token = "" →
        resp.ListRecords.ResumptionToken.Token = "" →
        Response.ResumptionToken (some resp) = (false, "", 0) := by
  intro h
  have h1 := h lastPage (by decide) (by decide)
  revert h1
  decide

/-- C6, amended. `ResumptionToken` returns `(false, "", 0)` for a nil
Response, and for a non-nil Response with both tokens empty it returns `false`,
the empty token and the ListRecords complete-list size. -/
theorem ResumptionToken_no_token (resp : Response)
    (hi : resp.ListIdentifiers.ResumptionToken.Token = "")
    (hr : resp.ListRecords.ResumptionToken.Token = "") :
    Response.ResumptionToken none = (false, "", 0) ∧
      Response.ResumptionToken (some resp) =
        (false, "", resp.ListRecords.ResumptionToken.CompleteListSize) := by
  simp [Response.ResumptionToken, hi, hr]

/-- C6, amended, at a last page whose empty token element carries size 100. -/
theorem ResumptionToken_no_token_witness :
    Response.ResumptionToken none = (false, "", 0) ∧
      Response.ResumptionToken (some lastPage) = (false, "", 100) :=
  ResumptionToken_no_token lastPage (by decide) (by decide)

/-! ## Harvest engine -/

/-- C1 fails on the code: `Harvest` clears `Set`, `MetadataPrefix` and `From`
but leaves `Until`, so the request issued for page 2 still has the `Until` of
page 1 and its URL still carries the `until` parameter. -/
theorem Harvest_second_page_keeps_Until :
    (Harvest (scripted twoPages) idle 2 0 firstRequest).issued =
        [ firstRequest,
          { BaseURL := "http://services.kb.nl/mdo/oai", Verb := "ListRecords",
            ResumptionToken := "abc", CompleteListSize := 3, Until := "2012-12-31" } ] ∧
      (Harvest (scripted twoPages) idle 2 0 firstRequest).issued.map GetFullURL =
        [ "http://services.kb.nl/mdo/oai?verb=ListRecords&set=DTS&metadataPrefix=dcx&from=2012-09-06&until=2012-12-31",
          "http://services.kb.nl/mdo/oai?verb=ListRecords&resumptionToken=abc&until=2012-12-31" ] := by
  decide

theorem rangeCallback_eq {α : Type} (xs : List α) : rangeCallback xs = xs := by
  induction xs with
  | nil => rfl
  | cons x rest ih => simp [rangeCallback, ih]

/-- One step of the engine on a page with a token: the request is issued, the
page is delivered, and the run goes on with the mutated request. -/
theorem Harvest_step_token {ε : Type} (server : Nat → String → Option Response)
    (batchCallback : Option Response → List ε × Except String Unit)
    (fuel k : Nat) (request : Request) (done : List ε) (t : String) (n : Int)
    (hcb : batchCallback (Perform server k request) = (done, .ok ()))
    (htok : Response.ResumptionToken (Perform server k request) = (true, t, n)) :
    Harvest server batchCallback (fuel + 1) k request =
      { Harvest server batchCallback fuel (k + 1)
          { request with
              Set := ""
              MetadataPrefix := ""
              From := ""
              ResumptionToken := t
              CompleteListSize := n } with
        issued := request ::
          (Harvest server batchCallback fuel (k + 1)
            { request with
                Set := ""
                MetadataPrefix := ""
                From := ""
                ResumptionToken := t
                CompleteListSize := n }).issued
        batches := Perform server k request ::
          (Harvest server batchCallback fuel (k + 1)
            { request with
                Set := ""
                MetadataPrefix := ""
                From := ""
                ResumptionToken := t
                CompleteListSize := n }).batches
        events := done ++
          (Harvest server batchCallback fuel (k + 1)
            { request with
                Set := ""
                MetadataPrefix := ""
                From := ""
                ResumptionToken := t
                CompleteListSize := n }).events } := by
  simp [Harvest, hcb, htok]

/-- One step of the engine on a page without a token: the request is issued,
the page is delivered, and the run returns. -/
theorem Harvest_step_last {ε : Type} (server : Nat → String → Option Response)
    (batchCallback : Option Response → List ε × Except String Unit)
    (fuel k : Nat) (request : Request) (done : List ε) (t : String) (n : Int)
    (hcb : batchCallback (Perform server k request) = (done, .ok ()))
    (htok : Response.ResumptionToken (Perform server k request) = (false, t, n)) :
    Harvest server batchCallback (fuel + 1) k request =
      { request := request, issued := [request], batches := [Perform server k request],
        events := done, status := .returned } := by
  simp [Harvest, hcb, htok]

/-- The engine on a chain of pages served from fetch `k` on, with a callback
that returns on every page of the chain and fuel for every page. -/
theorem Harvest_chain {ε : Type} (server : Nat → String → Option Response)
    (batchCallback : Option Response → List ε × Except String Unit)
    (pages : List Response) :
    ∀ (k fuel : Nat) (request : Request),
      PageChain pages →
      (∀ j url, j < pages.length → server (k + j) url = pages[j]?) →
      (∀ p ∈ pages, (batchCallback (some p)).2 = .ok ()) →
      pages.length ≤ fuel →
      (Harvest server batchCallback fuel k request).status = .returned ∧
        (Harvest server batchCallback fuel k request).issued.length = pages.length ∧
        (Harvest server batchCallback fuel k request).batches = pages.map some ∧
        (Harvest server batchCallback fuel k request).events =
          pages.flatMap (fun p => (batchCallback (some p)).1) := by
  induction pages with
  | nil => intro k fuel request hchain; exact absurd rfl hchain.1
  | cons p rest ih =>
    intro k fuel request hchain hserver hcb hfuel
    obtain ⟨fuel, rfl⟩ : ∃ f, fuel = f + 1 := ⟨fuel - 1, by simp at hfuel; omega⟩
    have hperf : Perform server k request = some p := by
      have := hserver 0 (GetFullURL request) (by simp)
      simpa [Perform] using this
    have hcb0 : batchCallback (Perform server k request)
        = ((batchCallback (some p)).1, .ok ()) := by
      rw [hperf]
      have := hcb p (by simp)
      rw [← this]
    have htok0 := hchain.2 0 (by simp)
    simp only [List.getElem_cons_zero, List.length_cons] at htok0
    cases rest with
    | nil =>
      have hfalse : (Response.ResumptionToken (some p)).1 = false := by
        cases hv : (Response.ResumptionToken (some p)).1 with
        | false => rfl
        | true => exact absurd (htok0.1 hv) (by simp)
      have htok : Response.ResumptionToken (Perform server k request)
          = (false, (Response.ResumptionToken (some p)).2.1,
              (Response.ResumptionToken (some p)).2.2) := by
        rw [hperf, ← hfalse]
      rw [Harvest_step_last server batchCallback fuel k request _ _ _ hcb0 htok, hperf]
      simp
    | cons q rest2 =>
      have htrue : (Response.ResumptionToken (some p)).1 = true := htok0.2 (by simp)
      have htok : Response.ResumptionToken (Perform server k request)
          = (true, (Response.ResumptionToken (some p)).2.1,
              (Response.ResumptionToken (some p)).2.2) := by
        rw [hperf, ← htrue]
      have hchain2 : PageChain (q :: rest2) := by
        refine ⟨by simp, ?_⟩
        intro j hj
        have := hchain.2 (j + 1) (by simp at hj ⊢; omega)
        simpa using this
      have hserver2 : ∀ j url, j < (q :: rest2).length →
          server (k + 1 + j) url = (q :: rest2)[j]? := by
        intro j url hj
        have := hserver (j + 1) url (by simp at hj ⊢; omega)
        have hk : k + 1 + j = k + (j + 1) := by omega
        rw [hk, this]
        simp
      have hcb2 : ∀ x ∈ q :: rest2, (batchCallback (some x)).2 = .ok () :=
        fun x hx => hcb x (List.mem_cons_of_mem _ hx)
      have hfuel2 : (q :: rest2).length ≤ fuel := by simp at hfuel ⊢; omega
      have hrec := ih (k + 1) fuel
        { request with
            Set := ""
            MetadataPrefix := ""
            From := ""
            ResumptionToken := (Response.ResumptionToken (some p)).2.1
            CompleteListSize := (Response.ResumptionToken (some p)).2.2 }
        hchain2 hserver2 hcb2 hfuel2
      rw [Harvest_step_token server batchCallback fuel k request _ _ _ hcb0 htok, hperf]
      obtain ⟨h1, h2, h3, h4⟩ := hrec
      refine ⟨h1, ?_, ?_, ?_⟩
      · simp [h2]
      · simp [h3]
      · simp [h4]

/-- C4. On a chain of `N ≥ 1` non-nil pages of which exactly the last has no
resumption token, and with a batch callback that returns on these pages,
`Harvest` (given fuel for `N` fetches or more) returns, has issued exactly `N`
page fetches, and has handed the pages to the callback once each, in order. -/
theorem Harvest_issues_N_and_returns {ε : Type} (server : Nat → String → Option Response)
    (batchCallback : Option Response → List ε × Except String Unit)
    (pages : List Response) (fuel : Nat) (request : Request)
    (hchain : PageChain pages) (hserver : Serves server pages)
    (hcb : ∀ p ∈ pages, (batchCallback (some p)).2 = .ok ())
    (hfuel : pages.length ≤ fuel) :
    (Harvest server batchCallback fuel 0 request).status = .returned ∧
      (Harvest server batchCallback fuel 0 request).issued.length = pages.length ∧
      (Harvest server batchCallback fuel 0 request).batches = pages.map some := by
  have h := Harvest_chain server batchCallback pages 0 fuel request hchain
    (by intro j url hj; simpa using hserver j url hj) hcb hfuel
  exact ⟨h.1, h.2.1, h.2.2.1⟩

theorem PageChain_twoPages : PageChain twoPages :=
  ⟨by decide, by decide⟩

theorem Serves_scripted (pages : List Response) : Serves (scripted pages) pages :=
  fun _ _ _ => rfl

/-- C4 on the two-page chain: two fetches, two deliveries, and a return, also
with fuel to spare. -/
theorem Harvest_issues_N_and_returns_witness :
    (Harvest (scripted twoPages) idle 5 0 firstRequest).status = .returned ∧
      (Harvest (scripted twoPages) idle 5 0 firstRequest).issued.length = twoPages.length ∧
      (Harvest (scripted twoPages) idle 5 0 firstRequest).batches = twoPages.map some :=
  Harvest_issues_N_and_returns (scripted twoPages) idle twoPages 5 firstRequest
    PageChain_twoPages (Serves_scripted twoPages) (fun _ _ => rfl) (by decide)

/-! ## Delivery adapters -/

/-- C5 fails on the code: when the first page fetch yields a nil Response, the
batch callbacks of the three adapters dereference it and the run ends in a
nil-pointer panic instead of returning. -/
theorem adapters_panic_on_nil_page (request : Request) (fuel n : Nat)
    (perIteration : Bool) :
    (HarvestIdentifiers (fun _ _ => none) (fuel + 1) request).status
        = .panicked nilDereference ∧
      (HarvestRecords (fun _ _ => none) (fuel + 1) request).status
        = .panicked nilDereference ∧
      (ChannelHarvestIdentifiers perIteration (fun _ _ => none) n (fuel + 1) request).status
        = .panicked nilDereference := by
  simp [HarvestIdentifiers, HarvestRecords, ChannelHarvestIdentifiers, Harvest, Perform,
    HarvestIdentifiers.batchCallback, HarvestRecords.batchCallback,
    ChannelHarvestIdentifiers.batchCallback]

/-- C8. On a chain of pages of which exactly the last has no resumption token,
`HarvestRecords` returns after handing to the callback the records of the
pages, page after page and in the order of each page, once each;
`HarvestIdentifiers` does the same with the headers. -/
theorem adapters_deliver_in_page_order (server : Nat → String → Option Response)
    (pages : List Response) (fuel : Nat) (request : Request)
    (hchain : PageChain pages) (hserver : Serves server pages)
    (hfuel : pages.length ≤ fuel) :
    ((HarvestRecords server fuel request).status = .returned ∧
      (HarvestRecords server fuel request).events
        = pages.flatMap (fun p => p.ListRecords.Records)) ∧
    ((HarvestIdentifiers server fuel request).status = .returned ∧
      (HarvestIdentifiers server fuel request).events
        = pages.flatMap (fun p => p.ListIdentifiers.Headers)) := by
  constructor
  · have h := Harvest_chain server HarvestRecords.batchCallback pages 0 fuel
      { request with Verb := "ListRecords" } hchain
      (by intro j url hj; simpa using hserver j url hj)
      (by intro p _; rfl) hfuel
    refine ⟨h.1, ?_⟩
    have h4 := h.2.2.2
    simpa [HarvestRecords, HarvestRecords.batchCallback, rangeCallback_eq] using h4
  · have h := Harvest_chain server HarvestIdentifiers.batchCallback pages 0 fuel
      { request with Verb := "ListIdentifiers" } hchain
      (by intro j url hj; simpa using hserver j url hj)
      (by intro p _; rfl) hfuel
    refine ⟨h.1, ?_⟩
    have h4 := h.2.2.2
    simpa [HarvestIdentifiers, HarvestIdentifiers.batchCallback, rangeCallback_eq] using h4

/-- C8 on the scenario of the specification: two records and the token `abc`,
then one record and no token; three records are delivered, in order. -/
theorem adapters_deliver_in_page_order_witness :
    (twoPages.flatMap (fun p => p.ListRecords.Records)).map (fun r => r.Header.Identifier)
        = ["r1", "r2", "r3"] ∧
    (((HarvestRecords (scripted twoPages) 2 firstRequest).status = .returned ∧
      (HarvestRecords (scripted twoPages) 2 firstRequest).events
        = twoPages.flatMap (fun p => p.ListRecords.Records)) ∧
    ((HarvestIdentifiers (scripted twoPages) 2 firstRequest).status = .returned ∧
      (HarvestIdentifiers (scripted twoPages) 2 firstRequest).events
        = twoPages.flatMap (fun p => p.ListIdentifiers.Headers))) :=
  ⟨by decide, adapters_deliver_in_page_order (scripted twoPages) twoPages 2 firstRequest
    PageChain_twoPages (Serves_scripted twoPages) (by decide)⟩

/-- The index variable of the header loop after a send: `i++` and the reset
amount to the successor modulo the number of channels. -/
theorem next_index_eq_mod (n m : Nat) (hn : 0 < n) :
    (if m % n + 1 = n then 0 else m % n + 1) = (m + 1) % n := by
  have hlt : m % n < n := Nat.mod_lt m hn
  have key : (m + 1) % n = (m % n + 1) % n := by
    rw [Nat.add_mod m 1 n]
    conv_rhs => rw [Nat.add_mod, Nat.mod_mod]
  rw [key]
  split_ifs with h
  · rw [h, Nat.mod_self]
  · have h2 : (m % n + 1) % n = m % n + 1 := Nat.mod_eq_of_lt (by omega)
    rw [h2]

/-- The header loop started in iteration `m` at index `m mod n` sends, for each
header numbered from `m`, a pointer to the range variable of its iteration to
the channel of its number modulo `n`, and does not panic. -/
theorem sendHeaders_enumFrom (perIteration : Bool) (n : Nat) (hn : 0 < n)
    (headers : List Header) :
    ∀ m, sendHeaders perIteration n headers m (m % n) =
      ((headers.enumFrom m).map
          (fun e => (e.1 % n, some { cell := rangeVariable perIteration e.1, holds := e.2 })),
        .ok ()) := by
  induction headers with
  | nil => intro m; rfl
  | cons h rest ih =>
    intro m
    have hlt : m % n < n := Nat.mod_lt m hn
    simp only [sendHeaders, hlt, if_true, next_index_eq_mod n m hn, ih (m + 1)]
    simp [List.enumFrom]

/-- C7 fails on the code when the range variable is one for the whole loop
(Go before 1.22): run on three channels and one page of seven headers,
`ChannelHarvestIdentifiers` does send in strict round-robin, but what it sends
is seven times the address of the one variable `header`. Channel 0 receives
three pointers to that variable, which held h1, h4 and h7 when they were sent
and which all read h7 once the loop has ended, so headers 1 and 4 reach no
consumer that reads later. With one variable per iteration the same run
delivers h1, h4, h7 to channel 0, h2, h5 to channel 1 and h3, h6 to channel 2. -/
theorem ChannelHarvestIdentifiers_sends_one_variable :
    ((ChannelHarvestIdentifiers false (scripted [sevenHeaders]) 3 1 firstRequest).status
        = .returned ∧
      (ChannelHarvestIdentifiers false (scripted [sevenHeaders]) 3 1 firstRequest).batches
        = [some sevenHeaders]) ∧
    (receivedBy 0
        (ChannelHarvestIdentifiers false (scripted [sevenHeaders]) 3 1 firstRequest).events
        = [some { cell := 0, holds := header "h1" }, some { cell := 0, holds := header "h4" },
            some { cell := 0, holds := header "h7" }, none] ∧
      receivedBy 1
        (ChannelHarvestIdentifiers false (scripted [sevenHeaders]) 3 1 firstRequest).events
        = [some { cell := 0, holds := header "h2" }, some { cell := 0, holds := header "h5" },
            none] ∧
      receivedBy 2
        (ChannelHarvestIdentifiers false (scripted [sevenHeaders]) 3 1 firstRequest).events
        = [some { cell := 0, holds := header "h3" }, some { cell := 0, holds := header "h6" },
            none]) ∧
    (readBack false sevenHeaders.ListIdentifiers.Headers
        (receivedBy 0
          (ChannelHarvestIdentifiers false (scripted [sevenHeaders]) 3 1 firstRequest).events)
        = [some (header "h7"), some (header "h7"), some (header "h7"), none] ∧
      readBack false sevenHeaders.ListIdentifiers.Headers
        (receivedBy 1
          (ChannelHarvestIdentifiers false (scripted [sevenHeaders]) 3 1 firstRequest).events)
        = [some (header "h7"), some (header "h7"), none] ∧
      readBack false sevenHeaders.ListIdentifiers.Headers
        (receivedBy 2
          (ChannelHarvestIdentifiers false (scripted [sevenHeaders]) 3 1 firstRequest).events)
        = [some (header "h7"), some (header "h7"), none]) ∧
    (readBack true sevenHeaders.ListIdentifiers.Headers
        (receivedBy 0
          (ChannelHarvestIdentifiers true (scripted [sevenHeaders]) 3 1 firstRequest).events)
        = [some (header "h1"), some (header "h4"), some (header "h7"), none] ∧
      readBack true sevenHeaders.ListIdentifiers.Headers
        (receivedBy 1
          (ChannelHarvestIdentifiers true (scripted [sevenHeaders]) 3 1 firstRequest).events)
        = [some (header "h2"), some (header "h5"), none] ∧
      readBack true sevenHeaders.ListIdentifiers.Headers
        (receivedBy 2
          (ChannelHarvestIdentifiers true (scripted [sevenHeaders]) 3 1 firstRequest).events)
        = [some (header "h3"), some (header "h6"), none]) := by
  decide

/-! ## Escaping in the URL builder -/

/-- C9 fails on the code: only the resumption token goes through
`url.QueryEscape`. An identifier `oai:h:a&b` is written as it is, and the URL
reads back as `identifier=oai:h:a` and a further parameter `b`, not as the
fields of the Request; the same text as a resumption token is escaped and
reads back unchanged. -/
theorem GetFullURL_identifier_not_escaped :
    GetFullURL reservedInIdentifier = "http://h/oai?verb=GetRecord&identifier=oai:h:a&b" ∧
      decodeQuery (GetFullURL reservedInIdentifier) =
        [("verb", some (bytes "GetRecord")), ("identifier", some (bytes "oai:h:a")),
          ("b", some [])] ∧
      originalParams reservedInIdentifier =
        [("verb", some (bytes "GetRecord")), ("identifier", some (bytes "oai:h:a&b"))] ∧
      decodeQuery (GetFullURL reservedInIdentifier) ≠ originalParams reservedInIdentifier ∧
      GetFullURL reservedInToken
        = "http://h/oai?verb=ListRecords&resumptionToken=oai%3Ah%3Aa%26b" ∧
      decodeQuery (GetFullURL reservedInToken) = originalParams reservedInToken := by
  decide

/-! ## One attempt of `Perform` -/

/-- C10. For every status code `s` of a GET that succeeded: the attempt ends
with a retryable (non-stop) error iff `s ≥ 500` or `s = 408`; with the
stop-wrapped client error iff `400 ≤ s < 500` and `s ≠ 408`; it reads the body
iff `s < 400`, and then a failed read and a failed parse end it with a
stop-wrapped error and a successful parse with no error. A transport error of
the GET itself is retryable. -/
theorem Perform_attempt_classification
    (Unmarshal : List Nat → Option Response → Option Response × Option String)
    (resp : HTTPResponse) (oaiResponse : Option Response) :
    (GoError.retryable (Perform.attempt Unmarshal (.ok resp) oaiResponse).err = true ↔
        resp.StatusCode ≥ 500 ∨ resp.StatusCode = 408) ∧
      ((Perform.attempt Unmarshal (.ok resp) oaiResponse).err
          = some (.stop (.Errorf ("client error: " ++ toString resp.StatusCode))) ↔
        400 ≤ resp.StatusCode ∧ resp.StatusCode < 500 ∧ resp.StatusCode ≠ 408) ∧
      ((Perform.attempt Unmarshal (.ok resp) oaiResponse).readBody = true ↔
        resp.StatusCode < 400) ∧
      (∀ e, resp.StatusCode < 400 → resp.Body = .error e →
        (Perform.attempt Unmarshal (.ok resp) oaiResponse).err = some (.stop (.readAll e)) ∧
        GoError.terminal (Perform.attempt Unmarshal (.ok resp) oaiResponse).err = true) ∧
      (∀ body e, resp.StatusCode < 400 → resp.Body = .ok body →
        (Unmarshal body oaiResponse).2 = some e →
        (Perform.attempt Unmarshal (.ok resp) oaiResponse).err = some (.stop (.unmarshal e)) ∧
        GoError.terminal (Perform.attempt Unmarshal (.ok resp) oaiResponse).err = true) ∧
      (∀ body, resp.StatusCode < 400 → resp.Body = .ok body →
        (Unmarshal body oaiResponse).2 = none →
        (Perform.attempt Unmarshal (.ok resp) oaiResponse).err = none ∧
        (Perform.attempt Unmarshal (.ok resp) oaiResponse).oaiResponse
          = (Unmarshal body oaiResponse).1) ∧
      (∀ msg, (Perform.attempt Unmarshal (.error msg) oaiResponse).err
          = some (.transport msg) ∧
        GoError.retryable (Perform.attempt Unmarshal (.error msg) oaiResponse).err = true) := by
  obtain ⟨s, Body⟩ := resp
  by_cases h1 : s ≥ 500
  · have h2 : ¬ s < 400 := by omega
    have h3 : ¬ s < 500 := by omega
    simp [Perform.attempt, GoError.retryable, h1, h2, h3]
  · by_cases h2 : s = 408
    · subst h2
      simp [Perform.attempt, GoError.retryable]
    · by_cases h3 : s ≥ 400
      · have h4 : ¬ s < 400 := by omega
        have h5 : s < 500 := by omega
        simp [Perform.attempt, GoError.retryable, h1, h2, h3, h4, h5]
      · have h4 : s < 400 := by omega
        cases Body with
        | error e =>
          simp [Perform.attempt, GoError.retryable, GoError.terminal, h1, h2, h3, h4]
        | ok body =>
          cases hu : Unmarshal body oaiResponse with
          | mk parsed err =>
            cases err with
            | none =>
              simp [Perform.attempt, GoError.retryable, GoError.terminal, h1, h2, h3, h4, hu]
              rintro _ e rfl
              simp [hu]
            | some e =>
              simp [Perform.attempt, GoError.retryable, GoError.terminal, h1, h2, h3, h4, hu]
              rintro _ e1 rfl he
              simpa [hu] using he


/-- C10 at the statuses 503, 408, 404 and 200, and at a body that cannot be
read. -/
theorem Perform_attempt_classification_witness :
    (errAt 503 = some (.Errorf "server error: 503") ∧
      errAt 408 = some (.Errorf "Timeout error: 408") ∧
      errAt 404 = some (.stop (.Errorf "client error: 404")) ∧
      errAt 200 = none) ∧
    ((Perform.attempt parseAny (.ok { StatusCode := 200, Body := .error "reset" }) none).err
        = some (.stop (.readAll "reset")) ∧
      GoError.terminal
        (Perform.attempt parseAny (.ok { StatusCode := 200, Body := .error "reset" }) none).err
        = true) :=
  ⟨by decide,
    (Perform_attempt_classification parseAny { StatusCode := 200, Body := .error "reset" }
      none).2.2.2.1 "reset" (by decide) rfl⟩

/-! ## Resumption tracker: the fallback -/

/-- C13. For every non-nil Response whose ListIdentifiers token is empty,
`ResumptionToken` returns the ListRecords token `t` and its size, whether `t`
is empty or not, with `hasResumptionToken` telling whether `t` is non-empty;
and for every non-nil Response `hasResumptionToken` is true iff the returned
token is a non-empty string. -/
theorem ResumptionToken_fallback (resp : Response)
    (h : resp.ListIdentifiers.ResumptionToken.Token = "") :
    Response.ResumptionToken (some resp) =
        (decide (resp.ListRecords.ResumptionToken.Token ≠ ""),
          resp.ListRecords.ResumptionToken.Token,
          resp.ListRecords.ResumptionToken.CompleteListSize) ∧
      ∀ r : Response,
        ((Response.ResumptionToken (some r)).1 = true ↔
          (Response.ResumptionToken (some r)).2.1 ≠ "") := by
  constructor
  · by_cases ht : resp.ListRecords.ResumptionToken.Token = "" <;>
      simp [Response.ResumptionToken, h, ht]
  · intro r
    by_cases hi : r.ListIdentifiers.ResumptionToken.Token = ""
    · by_cases hr : r.ListRecords.ResumptionToken.Token = "" <;>
        simp [Response.ResumptionToken, hi, hr]
    · simp [Response.ResumptionToken, hi]

/-- C13 on a page with the ListRecords token `abc` (size 3) and on a last page
whose empty token carries the size 100. -/
theorem ResumptionToken_fallback_witness :
    (Response.ResumptionToken (some tokenPage) = (true, "abc", 3) ∧
      Response.ResumptionToken (some lastPage) = (false, "", 100)) ∧
    (Response.ResumptionToken (some tokenPage) =
        (decide (tokenPage.ListRecords.ResumptionToken.Token ≠ ""),
          tokenPage.ListRecords.ResumptionToken.Token,
          tokenPage.ListRecords.ResumptionToken.CompleteListSize) ∧
      ∀ r : Response,
        ((Response.ResumptionToken (some r)).1 = true ↔
          (Response.ResumptionToken (some r)).2.1 ≠ "")) :=
  ⟨by decide, ResumptionToken_fallback tokenPage (by decide)⟩

/-! ## Harvest engine: a failed page -/

/-- C11 as stated fails: "returns normally" does not hold for every batch
callback. Handed the nil Response of a failed page, the batch callback of
`HarvestRecords` dereferences it, and the run of `Harvest` ends in that panic. -/
theorem Harvest_nil_page_callback_panics :
    Perform failing 0 firstRequest = none ∧
      (Harvest failing HarvestRecords.batchCallback 1 0 firstRequest).status
        = .panicked nilDereference ∧
      ¬ ∀ (batchCallback : Option Response → List Record × Except String Unit)
          (request : Request),
          Perform failing 0 request = none →
          (Harvest failing batchCallback 1 0 request).status = .returned := by
  refine ⟨rfl, by decide, ?_⟩
  intro h
  have h1 := h HarvestRecords.batchCallback firstRequest rfl
  revert h1
  decide

/-- C11, amended. When the page fetch yields a nil Response, `Harvest` (for
every Request and every batch callback) has issued that one request only, has
invoked the callback once, with the nil Response, finds no resumption token in
it and leaves the Request as it was; and it returns normally when the callback
itself returns on the nil Response. -/
theorem Harvest_nil_page {ε : Type} (server : Nat → String → Option Response)
    (batchCallback : Option Response → List ε × Except String Unit)
    (fuel k : Nat) (request : Request)
    (hnil : Perform server k request = none) :
    Response.ResumptionToken (Perform server k request) = (false, "", 0) ∧
      (Harvest server batchCallback (fuel + 1) k request).issued = [request] ∧
      (Harvest server batchCallback (fuel + 1) k request).batches = [none] ∧
      (Harvest server batchCallback (fuel + 1) k request).events = (batchCallback none).1 ∧
      (Harvest server batchCallback (fuel + 1) k request).request = request ∧
      ((batchCallback none).2 = .ok () →
        (Harvest server batchCallback (fuel + 1) k request).status = .returned) := by
  have htok : Response.ResumptionToken (Perform server k request) = (false, "", 0) := by
    rw [hnil]; rfl
  refine ⟨htok, ?_⟩
  cases hcb : batchCallback none with
  | mk done r =>
    have hcb0 : batchCallback (Perform server k request) = (done, r) := by rw [hnil, hcb]
    cases r with
    | error msg => simp [Harvest, hnil, hcb]
    | ok u =>
      rw [Harvest_step_last server batchCallback fuel k request done "" 0 hcb0 htok, hnil]
      simp

/-- C11, amended, on a first-page request with every selector set, against a
server whose fetches fail, with a callback that returns: the run returns. -/
theorem Harvest_nil_page_witness :
    (Harvest failing idle 5 0 firstRequest =
        { request := firstRequest, issued := [firstRequest], batches := [none],
          events := [], status := .returned } ∧
      (idle none).2 = .ok ()) ∧
    (Response.ResumptionToken (Perform failing 0 firstRequest) = (false, "", 0) ∧
      (Harvest failing idle (4 + 1) 0 firstRequest).issued = [firstRequest] ∧
      (Harvest failing idle (4 + 1) 0 firstRequest).batches = [none] ∧
      (Harvest failing idle (4 + 1) 0 firstRequest).events = (idle none).1 ∧
      (Harvest failing idle (4 + 1) 0 firstRequest).request = firstRequest ∧
      ((idle none).2 = .ok () →
        (Harvest failing idle (4 + 1) 0 firstRequest).status = .returned)) :=
  ⟨⟨by decide, rfl⟩, Harvest_nil_page failing idle 4 0 firstRequest rfl⟩

/-! ## Harvest engine: the frame of the pagination step -/

/-- Whatever the server, the callback and the fuel, the base URL, the verb and
the identifier of the Request after a run, and of the Request at each page
fetch of the run, are those the run started with. -/
theorem Harvest_frame {ε : Type} (server : Nat → String → Option Response)
    (batchCallback : Option Response → List ε × Except String Unit) :
    ∀ (fuel k : Nat) (request : Request),
      ((Harvest server batchCallback fuel k request).request.BaseURL = request.BaseURL ∧
        (Harvest server batchCallback fuel k request).request.Verb = request.Verb ∧
        (Harvest server batchCallback fuel k request).request.Identifier
          = request.Identifier) ∧
      ∀ r ∈ (Harvest server batchCallback fuel k request).issued,
        r.BaseURL = request.BaseURL ∧ r.Verb = request.Verb ∧
          r.Identifier = request.Identifier := by
  intro fuel
  induction fuel with
  | zero => intro k request; simp [Harvest]
  | succ fuel ih =>
    intro k request
    cases hcb : batchCallback (Perform server k request) with
    | mk done r =>
      cases r with
      | error msg => simp [Harvest, hcb]
      | ok u =>
        cases htok : Response.ResumptionToken (Perform server k request) with
        | mk has rest =>
          cases rest with
          | mk t n =>
            cases has with
            | false => simp [Harvest, hcb, htok]
            | true =>
              have hrec := ih (k + 1)
                { request with
                    Set := ""
                    MetadataPrefix := ""
                    From := ""
                    ResumptionToken := t
                    CompleteListSize := n }
              rw [Harvest_step_token server batchCallback fuel k request done t n hcb htok]
              refine ⟨hrec.1, ?_⟩
              intro r hr
              simp only [List.mem_cons] at hr
              rcases hr with rfl | hr
              · exact ⟨rfl, rfl, rfl⟩
              · exact hrec.2 r hr

theorem mem_add_of_mem (array : List String) (name value x : String) (h : x ∈ array) :
    x ∈ add array name value := by
  rw [add_eq_append]
  exact List.mem_append_left _ h

theorem mem_add_self (array : List String) (name value : String) (h : value ≠ "") :
    name ++ "=" ++ value ∈ add array name value := by
  rw [add_eq_append]
  simp [h]

/-- A verb that is not empty is a parameter of the URL. -/
theorem verb_mem_queryArray (r : Request) (h : r.Verb ≠ "") :
    "verb=" ++ r.Verb ∈ queryArray r := by
  have h0 := mem_add_self [] "verb" r.Verb h
  have he : ("verb" ++ "=" : String) = "verb=" := by decide
  rw [he] at h0
  unfold queryArray
  exact mem_add_of_mem _ _ _ _ (mem_add_of_mem _ _ _ _ (mem_add_of_mem _ _ _ _
    (mem_add_of_mem _ _ _ _ (mem_add_of_mem _ _ _ _ (mem_add_of_mem _ _ _ _ h0)))))

/-- An identifier that is not empty is a parameter of the URL, whatever the
other fields are. -/
theorem identifier_mem_queryArray (r : Request) (h : r.Identifier ≠ "") :
    "identifier=" ++ r.Identifier ∈ queryArray r := by
  have he : ("identifier" ++ "=" : String) = "identifier=" := by decide
  unfold queryArray
  have h0 := mem_add_self
    (add (add (add (add [] "verb" r.Verb) "set" r.Set) "metadataPrefix" r.MetadataPrefix)
      "resumptionToken" (QueryEscape r.ResumptionToken)) "identifier" r.Identifier h
  rw [he] at h0
  exact mem_add_of_mem _ _ _ _ (mem_add_of_mem _ _ _ _ h0)

/-- C14. Whatever the server answers, whatever the callback does and however
long the run is, `Harvest` leaves `BaseURL`, `Verb` and `Identifier` of the
Request as they were, and every page fetch of the run is made with these three
values: its URL is the base URL of page 1, `?` and the joined parameters, and
among the parameters are the verb and the identifier of page 1 when they are
not empty, also next to a resumption token. -/
theorem Harvest_keeps_BaseURL_Verb_Identifier {ε : Type}
    (server : Nat → String → Option Response)
    (batchCallback : Option Response → List ε × Except String Unit)
    (fuel k : Nat) (request : Request) :
    ((Harvest server batchCallback fuel k request).request.BaseURL = request.BaseURL ∧
      (Harvest server batchCallback fuel k request).request.Verb = request.Verb ∧
      (Harvest server batchCallback fuel k request).request.Identifier
        = request.Identifier) ∧
    (∀ r ∈ (Harvest server batchCallback fuel k request).issued,
      (r.BaseURL = request.BaseURL ∧ r.Verb = request.Verb ∧
        r.Identifier = request.Identifier) ∧
      GetFullURL r = request.BaseURL ++ "?" ++ Join (queryArray r) "&" ∧
      (request.Verb ≠ "" → "verb=" ++ request.Verb ∈ queryArray r) ∧
      (request.Identifier ≠ "" → "identifier=" ++ request.Identifier ∈ queryArray r)) := by
  have h := Harvest_frame server batchCallback fuel k request
  refine ⟨h.1, ?_⟩
  intro r hr
  obtain ⟨hb, hv, hi⟩ := h.2 r hr
  refine ⟨⟨hb, hv, hi⟩, ?_, ?_, ?_⟩
  · rw [← hb]
    simp [GetFullURL, Join, String.append_assoc]
  · intro hne
    rw [← hv] at hne ⊢
    exact verb_mem_queryArray r hne
  · intro hne
    rw [← hi] at hne ⊢
    exact identifier_mem_queryArray r hne

/-- C14 on a two-page harvest of a request with a set spec and an identifier:
the follow-up URL has the base URL, the verb and the identifier of page 1. -/
theorem Harvest_keeps_BaseURL_Verb_Identifier_witness :
    (Harvest (scripted twoPages) idle 2 0 identifierRequest).issued.map GetFullURL =
      [ "http://h/oai?verb=ListRecords&set=DTS&identifier=oai:h:1",
        "http://h/oai?verb=ListRecords&resumptionToken=abc&identifier=oai:h:1" ] ∧
    (((Harvest (scripted twoPages) idle 2 0 identifierRequest).request.BaseURL
        = identifierRequest.BaseURL ∧
      (Harvest (scripted twoPages) idle 2 0 identifierRequest).request.Verb
        = identifierRequest.Verb ∧
      (Harvest (scripted twoPages) idle 2 0 identifierRequest).request.Identifier
        = identifierRequest.Identifier) ∧
    (∀ r ∈ (Harvest (scripted twoPages) idle 2 0 identifierRequest).issued,
      (r.BaseURL = identifierRequest.BaseURL ∧ r.Verb = identifierRequest.Verb ∧
        r.Identifier = identifierRequest.Identifier) ∧
      GetFullURL r = identifierRequest.BaseURL ++ "?" ++ Join (queryArray r) "&" ∧
      (identifierRequest.Verb ≠ "" → "verb=" ++ identifierRequest.Verb ∈ queryArray r) ∧
      (identifierRequest.Identifier ≠ "" →
        "identifier=" ++ identifierRequest.Identifier ∈ queryArray r))) :=
  ⟨by decide, Harvest_keeps_BaseURL_Verb_Identifier (scripted twoPages) idle 2 0
    identifierRequest⟩

/-! ## Channel fan-out: the completion sentinel -/

theorem PageChain_single (p : Response) (h : PageChain [p]) :
    (Response.ResumptionToken (some p)).1 = false := by
  have h0 := h.2 0 (by simp)
  simp only [List.getElem_cons_zero, List.length_cons, List.length_nil] at h0
  cases hv : (Response.ResumptionToken (some p)).1 with
  | false => rfl
  | true => exact absurd (h0.1 hv) (by simp)

theorem PageChain_cons_cons (p q : Response) (rest : List Response)
    (h : PageChain (p :: q :: rest)) :
    (Response.ResumptionToken (some p)).1 = true ∧ PageChain (q :: rest) := by
  constructor
  · have h0 := h.2 0 (by simp)
    simp only [List.getElem_cons_zero, List.length_cons] at h0
    exact h0.2 (by omega)
  · refine ⟨by simp, ?_⟩
    intro j hj
    have := h.2 (j + 1) (by simp at hj ⊢; omega)
    simpa using this

/-- Over a chain, what is done on every page without a token is done once,
after everything else. -/
theorem flatMap_chain {α : Type} (f : Response → List α) (s : List α)
    (pages : List Response) (hchain : PageChain pages) :
    pages.flatMap
        (fun p => f p ++ (if (Response.ResumptionToken (some p)).1 = true then [] else s))
      = pages.flatMap f ++ s := by
  induction pages with
  | nil => exact absurd rfl hchain.1
  | cons p rest ih =>
    cases rest with
    | nil =>
      have hf := PageChain_single p hchain
      simp [hf]
    | cons q rest2 =>
      obtain ⟨ht, hc⟩ := PageChain_cons_cons p q rest2 hchain
      have hrec := ih hc
      rw [List.flatMap_cons, hrec, List.flatMap_cons]
      simp [ht]

/-- With at least one channel, the batch callback of the fan-out on a non-nil
page returns after the header sends of the page, followed by the sentinels if
the page has no token. -/
theorem batchCallback_some (perIteration : Bool) (n : Nat) (hn : 0 < n) (resp : Response) :
    ChannelHarvestIdentifiers.batchCallback perIteration n (some resp) =
      (headerSends perIteration n resp ++
          (if (Response.ResumptionToken (some resp)).1 = true then [] else sendNil n),
        .ok ()) := by
  have h := sendHeaders_enumFrom perIteration n hn resp.ListIdentifiers.Headers 0
  simp only [Nat.zero_mod] at h
  unfold ChannelHarvestIdentifiers.batchCallback headerSends
  simp only [h, List.enum]
  cases (Response.ResumptionToken (some resp)).1 <;> simp

theorem receivedBy_append (c : Nat) (a b : List Send) :
    receivedBy c (a ++ b) = receivedBy c a ++ receivedBy c b := by
  simp [receivedBy]

theorem receivedBy_sendNil_of_le (c : Nat) : ∀ n, n ≤ c → receivedBy c (sendNil n) = [] := by
  intro n
  induction n with
  | zero => intro _; rfl
  | succ n ih =>
    intro h
    have h1 := ih (by omega)
    have hne : ¬ n = c := by omega
    simp only [sendNil, receivedBy, List.range_succ, List.map_append, List.filter_append]
      at h1 ⊢
    simp [h1, hne]

theorem receivedBy_sendNil_of_lt (c : Nat) : ∀ n, c < n → receivedBy c (sendNil n) = [none] := by
  intro n
  induction n with
  | zero => intro h; omega
  | succ n ih =>
    intro h
    by_cases hc : c < n
    · have h1 := ih hc
      have hne : ¬ n = c := by omega
      simp only [sendNil, receivedBy, List.range_succ, List.map_append, List.filter_append]
        at h1 ⊢
      simp [h1, hne]
    · have hc2 : n = c := by omega
      have h1 := receivedBy_sendNil_of_le c n (by omega)
      simp only [sendNil, receivedBy, List.range_succ, List.map_append, List.filter_append]
        at h1 ⊢
      simp [h1, hc2]
      intro a ha
      omega

theorem headerSends_ne_none (perIteration : Bool) (n : Nat) (pages : List Response) :
    ∀ e ∈ pages.flatMap (headerSends perIteration n), e.2 ≠ none := by
  intro e he
  simp only [List.mem_flatMap, headerSends, List.mem_map] at he
  obtain ⟨p, _, x, _, rfl⟩ := he
  simp

theorem none_not_mem_receivedBy (perIteration : Bool) (c n : Nat) (pages : List Response) :
    none ∉ receivedBy c (pages.flatMap (headerSends perIteration n)) := by
  intro h
  simp only [receivedBy, List.mem_map, List.mem_filter] at h
  obtain ⟨e, ⟨he, _⟩, hnone⟩ := h
  exact headerSends_ne_none perIteration n pages e he hnone

theorem PageChain_headerPages : PageChain headerPages :=
  ⟨by decide, by decide⟩

/-- C12. With `n ≥ 1` channels, on a chain of non-nil pages of which exactly
the last has no resumption token, `ChannelHarvestIdentifiers` returns after
sending the headers of all the pages and then, once, the nil sentinel to each
channel: no send before the sentinels carries nil, every send goes to one of
the `n` channels, and each channel receives its headers followed by exactly one
nil, which is the last value it receives (whether the range variable of the
header loop is one per loop or one per iteration). -/
theorem ChannelHarvestIdentifiers_sentinel (perIteration : Bool)
    (server : Nat → String → Option Response) (n : Nat) (pages : List Response) (fuel : Nat) (request : Request)
    (hn : 0 < n) (hchain : PageChain pages) (hserver : Serves server pages)
    (hfuel : pages.length ≤ fuel) :
    (ChannelHarvestIdentifiers perIteration server n fuel request).status = .returned ∧
      (ChannelHarvestIdentifiers perIteration server n fuel request).events
        = pages.flatMap (headerSends perIteration n) ++ sendNil n ∧
      (∀ e ∈ pages.flatMap (headerSends perIteration n), e.2 ≠ none) ∧
      (∀ e ∈ (ChannelHarvestIdentifiers perIteration server n fuel request).events, e.1 < n) ∧
      (∀ c, c < n →
        receivedBy c (ChannelHarvestIdentifiers perIteration server n fuel request).events
          = receivedBy c (pages.flatMap (headerSends perIteration n)) ++ [none] ∧
        (receivedBy c (ChannelHarvestIdentifiers perIteration server n fuel request).events).count none
          = 1) := by
  have h := Harvest_chain server (ChannelHarvestIdentifiers.batchCallback perIteration n) pages 0 fuel
    { request with Verb := "ListIdentifiers" } hchain
    (by intro j url hj; simpa using hserver j url hj)
    (by intro p _; rw [batchCallback_some perIteration n hn]) hfuel
  have hev : (ChannelHarvestIdentifiers perIteration server n fuel request).events
      = pages.flatMap (headerSends perIteration n) ++ sendNil n := by
    have h4 := h.2.2.2
    simp only [batchCallback_some perIteration n hn] at h4
    rw [flatMap_chain (headerSends perIteration n) (sendNil n) pages hchain] at h4
    exact h4
  refine ⟨h.1, hev, headerSends_ne_none perIteration n pages, ?_, ?_⟩
  · intro e he
    rw [hev, List.mem_append] at he
    rcases he with he | he
    · simp only [List.mem_flatMap, headerSends, List.mem_map] at he
      obtain ⟨p, _, x, _, rfl⟩ := he
      exact Nat.mod_lt _ hn
    · simp only [sendNil, List.mem_map, List.mem_range] at he
      obtain ⟨c, hc, rfl⟩ := he
      exact hc
  · intro c hc
    have hr : receivedBy c (ChannelHarvestIdentifiers perIteration server n fuel request).events
        = receivedBy c (pages.flatMap (headerSends perIteration n)) ++ [none] := by
      rw [hev, receivedBy_append, receivedBy_sendNil_of_lt c n hc]
    refine ⟨hr, ?_⟩
    rw [hr, List.count_append,
      List.count_eq_zero_of_not_mem (none_not_mem_receivedBy perIteration c n pages)]
    simp

/-- C12 on two channels and a chain of two pages (three headers and a token,
then two headers): channel 0 receives pointers sent for h1, h3, h4 and then
nil, channel 1 receives pointers sent for h2, h5 and then nil. -/
theorem ChannelHarvestIdentifiers_sentinel_witness :
    ((receivedBy 0
          (ChannelHarvestIdentifiers true (scripted headerPages) 2 2 firstRequest).events
        = [some { cell := 0, holds := header "h1" }, some { cell := 2, holds := header "h3" },
            some { cell := 0, holds := header "h4" }, none] ∧
      receivedBy 1
          (ChannelHarvestIdentifiers true (scripted headerPages) 2 2 firstRequest).events
        = [some { cell := 1, holds := header "h2" }, some { cell := 1, holds := header "h5" },
            none]) ∧
      (receivedBy 0
          (ChannelHarvestIdentifiers true (scripted headerPages) 2 2 firstRequest).events).map
          (Option.map Ref.holds)
        = [some (header "h1"), some (header "h3"), some (header "h4"), none] ∧
      (receivedBy 1
          (ChannelHarvestIdentifiers true (scripted headerPages) 2 2 firstRequest).events).map
          (Option.map Ref.holds)
        = [some (header "h2"), some (header "h5"), none]) ∧
    ((ChannelHarvestIdentifiers true (scripted headerPages) 2 2 firstRequest).status
        = .returned ∧
      (ChannelHarvestIdentifiers true (scripted headerPages) 2 2 firstRequest).events
        = headerPages.flatMap (headerSends true 2) ++ sendNil 2 ∧
      (∀ e ∈ headerPages.flatMap (headerSends true 2), e.2 ≠ none) ∧
      (∀ e ∈ (ChannelHarvestIdentifiers true (scripted headerPages) 2 2 firstRequest).events,
        e.1 < 2) ∧
      (∀ c, c < 2 →
        receivedBy c
            (ChannelHarvestIdentifiers true (scripted headerPages) 2 2 firstRequest).events
          = receivedBy c (headerPages.flatMap (headerSends true 2)) ++ [none] ∧
        (receivedBy c
          (ChannelHarvestIdentifiers true (scripted headerPages) 2 2
            firstRequest).events).count none
          = 1)) :=
  ⟨by decide, ChannelHarvestIdentifiers_sentinel true (scripted headerPages) 2 headerPages 2
    firstRequest (by decide) PageChain_headerPages (Serves_scripted headerPages) (by decide)⟩

/-! ## Channel fan-out: what holds of the routing -/

/-- Among the header sends of a page, channel `c` is sent the pointers of
exactly the iterations `j` with `j mod n = c`, in the order of the page. -/
theorem receivedBy_headerSends (perIteration : Bool) (n c : Nat) (p : Response) :
    receivedBy c (headerSends perIteration n p) =
      (p.ListIdentifiers.Headers.enum.filter (fun e => e.1 % n = c)).map
        (fun e => some { cell := rangeVariable perIteration e.1, holds := e.2 }) := by
  simp only [receivedBy, headerSends, List.filter_map, List.map_map]
  rfl

/-- With `n ≥ 1` channels, on a chain of pages served to the run,
`ChannelHarvestIdentifiers` returns after being handed every page, and its
sends are, page after page, the pointer of iteration `j` to channel `j mod n`,
followed by the sentinels; the variable pointed to holds the `j`-th header at
the time of the send. -/
theorem fanOut_round_robin (perIteration : Bool) (server : Nat → String → Option Response)
    (n : Nat) (pages : List Response) (fuel : Nat) (request : Request)
    (hn : 0 < n) (hchain : PageChain pages) (hserver : Serves server pages)
    (hfuel : pages.length ≤ fuel) :
    (ChannelHarvestIdentifiers perIteration server n fuel request).status = .returned ∧
      (ChannelHarvestIdentifiers perIteration server n fuel request).batches
        = pages.map some ∧
      (ChannelHarvestIdentifiers perIteration server n fuel request).events
        = pages.flatMap (headerSends perIteration n) ++ sendNil n := by
  have h := Harvest_chain server (ChannelHarvestIdentifiers.batchCallback perIteration n)
    pages 0 fuel { request with Verb := "ListIdentifiers" } hchain
    (by intro j url hj; simpa using hserver j url hj)
    (by intro p _; rw [batchCallback_some perIteration n hn]) hfuel
  refine ⟨h.1, h.2.2.1, ?_⟩
  have h4 := h.2.2.2
  simp only [batchCallback_some perIteration n hn] at h4
  rw [flatMap_chain (headerSends perIteration n) (sendNil n) pages hchain] at h4
  exact h4

/-- With one range variable per iteration, what the pointers of a page read
once the loop has ended is what they held when they were sent. -/
theorem readBack_perIteration (n c : Nat) (p : Response) :
    readBack true p.ListIdentifiers.Headers (receivedBy c (headerSends true n p)) =
      (p.ListIdentifiers.Headers.enum.filter (fun e => e.1 % n = c)).map
        (fun e => some e.2) := by
  rw [receivedBy_headerSends]
  simp only [readBack, rangeVariables, rangeVariable, List.map_map, if_true]
  apply List.map_congr_left
  intro e he
  have hmem := (List.mem_filter.1 he).1
  obtain ⟨j, h⟩ := e
  obtain ⟨hlt, hval⟩ := List.mem_enum hmem
  simp [List.getElem?_eq_getElem hlt, hval]

end oai
